import Mathlib

/-!
Verification development for the `model-poker` orchestrator (`src/index.ts`).

The TypeScript program drives a Texas Hold'em game whose per-seat decisions
come from an external structured-response API. We shallowly embed the
orchestration logic: the zod-based validation of model proposals
(`callModel`), the fallback policy (`getModelAction`), the per-turn and
per-hand event-emitting loops of `main`, the snapshot builder
(`createTemplateData`), and the player-loading phase. The external
collaborators (the poker-ts `Table` and the Anthropic transport) are modelled
as oracles: their answers at each query point are inputs (a "script"), since
the orchestrator treats them as opaque.
-/

namespace ModelPoker

/-- The `Action` union type of `index.ts`:
`type Action = "fold" | "check" | "call" | "bet" | "raise"`. -/
inductive Action where
  | fold
  | check
  | call
  | bet
  | raise
deriving DecidableEq, Repr

/-- The string each `Action` member denotes in the TypeScript union. -/
def actionName : Action → String
  | .fold => "fold"
  | .check => "check"
  | .call => "call"
  | .bet => "bet"
  | .raise => "raise"

/-- `chipRange: { min: number; max: number }` from the `LegalActions`
interface. Chips are non-negative integers. -/
structure ChipRange where
  min : Nat
  max : Nat
deriving DecidableEq, Repr

/-- `interface LegalActions { actions: Action[]; chipRange?: {...} }`. -/
structure LegalActions where
  actions : List Action
  chipRange : Option ChipRange
deriving DecidableEq, Repr

/-- `interface TakenAction { action: Action; betSize?: number }`.
The bet size proposed by the model is an arbitrary number, so we keep it as
an integer (`Int`) to retain out-of-range and negative proposals. -/
structure TakenAction where
  action : Action
  betSize : Option Int
deriving DecidableEq, Repr

/-- `interface Seat { totalChips: number; stack: number; betSize: number }`
as returned by `table.seats()` for an occupied seat. -/
structure Seat where
  totalChips : Nat
  stack : Nat
  betSize : Nat
deriving DecidableEq, Repr

/-- A playing card as poker-ts exposes it: `{ rank: string; suit: string }`. -/
structure Card where
  rank : String
  suit : String
deriving DecidableEq, Repr

/-- `interface Pot { size: number; eligiblePlayers: number[] }`. -/
structure Pot where
  size : Nat
  eligiblePlayers : List Nat
deriving DecidableEq, Repr

/-- `interface PlayerConfig { name: string; model: string }`. -/
structure PlayerConfig where
  name : String
  model : String
deriving DecidableEq, Repr

/-- `interface ModelPlayer` minus the compiled Handlebars template (a
function value that the orchestration logic never inspects; the rendered
prompt does not influence validation, which only consumes the provider's
structured response). -/
structure ModelPlayer where
  name : String
  index : Nat
  prompt : String
  model : String
deriving DecidableEq, Repr

/-- `players[i].name`, defaulting to the empty string out of range. -/
def nameAt (players : List ModelPlayer) (i : Nat) : String :=
  (players.get? i).elim "" ModelPlayer.name

/-!
## The decision-provider call (`callModel`) and its zod validation

`callModel` sends the prompt and a tool schema to the API, extracts the
`take_action` tool-use block from the response, and validates the block's
input with a zod schema built from the offered `LegalActions`. We model the
raw tool input as the two fields the schemas mention (zod's default object
parsing strips unknown keys, so other keys are irrelevant), the response as
either a transport failure or a list of content blocks, and the thrown
errors as an inductive error kind: the API client throws transport errors,
`callModel` itself throws `Error("No tool use block found")`, and
`zod.parse` throws `ZodError` — three distinct kinds of thrown value.
-/

/-- The raw input of a `take_action` tool-use block, before validation.
`action` is an arbitrary string or absent; `betSize` an arbitrary number or
absent. -/
structure RawInput where
  action : Option String
  betSize : Option Int
deriving DecidableEq, Repr

/-- A content block of the API response: `type === "tool_use"` flag, the
block name, and its input payload. -/
structure ContentBlock where
  isToolUse : Bool
  name : String
  input : RawInput
deriving DecidableEq, Repr

/-- The outcome of the transport call `anthropic.messages.create`: either it
rejects (network/API failure) or it resolves with a content-block list. -/
inductive ProviderResponse where
  | transportError
  | content (blocks : List ContentBlock)
deriving DecidableEq, Repr

/-- The kind of error thrown inside `callModel`'s dynamic extent:
a transport rejection, the explicit `Error("No tool use block found")`, or a
`ZodError` from `.parse`. These are distinct runtime values, all caught and
logged by `getModelAction`'s `catch`. -/
inductive CallError where
  | transport
  | noToolUse
  | validation
deriving DecidableEq, Repr

/-- `z.enum([...legalActions.actions])` applied to the raw `action` string:
succeeds exactly when the string names one of the offered actions. -/
def parseActionStr (allowed : List Action) (s : String) : Option Action :=
  allowed.find? (fun a => actionName a == s)

/-- The zod schema used when `legalActions.chipRange` is present:
`{ action: z.enum(actions), betSize: z.number().min(lo).max(hi).optional() }`.
`betSize` is optional regardless of the action, and when present must lie in
the range regardless of the action; a declared key is retained by `.parse`. -/
def validateWithRange (la : LegalActions) (cr : ChipRange) (inp : RawInput) :
    Option TakenAction :=
  match inp.action with
  | none => none
  | some s =>
    match parseActionStr la.actions s with
    | none => none
    | some a =>
      match inp.betSize with
      | none => some ⟨a, none⟩
      | some b =>
        if (cr.min : Int) ≤ b ∧ b ≤ (cr.max : Int) then some ⟨a, some b⟩
        else none

/-- The zod schema used when `legalActions.chipRange` is absent:
`{ action: z.enum(actions) }`. An undeclared `betSize` key is stripped by
`.parse`, so the result never carries a bet size. -/
def validateNoRange (la : LegalActions) (inp : RawInput) : Option TakenAction :=
  match inp.action with
  | none => none
  | some s =>
    match parseActionStr la.actions s with
    | none => none
    | some a => some ⟨a, none⟩

/-- The zod validation step of `callModel`: which schema applies depends on
whether a `chipRange` was offered. -/
def validateProposal (la : LegalActions) (inp : RawInput) : Option TakenAction :=
  match la.chipRange with
  | some cr => validateWithRange la cr inp
  | none => validateNoRange la inp

/-- `callModel(player, prompt, legalActions)`: await the transport, find the
`take_action` tool-use block, and validate its input against the offered
`LegalActions`. Every `throw` in the source becomes an `Except.error` of the
corresponding kind. -/
def callModel (la : LegalActions) (resp : ProviderResponse) :
    Except CallError TakenAction :=
  match resp with
  | .transportError => .error .transport
  | .content blocks =>
    match blocks.find? (fun b => b.isToolUse && b.name == "take_action") with
    | none => .error .noToolUse
    | some b =>
      match validateProposal la b.input with
      | some ta => .ok ta
      | none => .error .validation

/-- `getModelAction`: wraps `callModel` in `try/catch`; any thrown error is
logged (`console.error(error)`) and replaced by the fallback
`{ action: "fold" }`. The returned pair is (the action the orchestrator
proceeds with, the separately logged error if one occurred). -/
def getModelAction (la : LegalActions) (resp : ProviderResponse) :
    TakenAction × Option CallError :=
  match callModel la resp with
  | .ok ta => (ta, none)
  | .error e => (⟨Action.fold, none⟩, some e)

/-!
## The snapshot builder (`createTemplateData`)

A pure function of the table queries it performs and the roster. We gather
those queries into a `TableView` record (one field per `table.*()` call the
function makes) and mirror the returned object literal, flattened: the TS
shape is `{player: {name, seatIndex}, currentHand: {holeCards,
communityCards, pots, legalActions, round}, game: {playerStacks}}`.
-/

/-- The answers of the poker-ts queries `createTemplateData` performs. -/
structure TableView where
  holeCards : List (Option (List Card))
  communityCards : List Card
  pots : List Pot
  legalActions : LegalActions
  roundOfBetting : String
  seats : List (Option Seat)
deriving DecidableEq, Repr

/-- A pot with seat indices translated to player names, as placed in the
template data. -/
structure PotView where
  size : Nat
  eligiblePlayers : List String
deriving DecidableEq, Repr

/-- One entry of `game.playerStacks`. The active branch of the source sets
`{name, status: "active", totalChips, stack, betSize}`; the eliminated
branch sets `{name, totalChips: 0, status: "eliminated"}` and omits `stack`
and `betSize`, which we render as `none`. -/
structure PlayerStackEntry where
  name : String
  status : String
  totalChips : Nat
  stack : Option Nat
  betSize : Option Nat
deriving DecidableEq, Repr

/-- The object returned by `createTemplateData`, flattened. -/
structure TemplateData where
  playerName : String
  playerSeatIndex : Nat
  holeCards : Option (List Card)
  communityCards : List Card
  pots : List PotView
  legalActions : LegalActions
  round : String
  playerStacks : List PlayerStackEntry
deriving DecidableEq, Repr

/-- The seat-to-entry rendering inside the `playerStacks` map: a truthy
(non-null) seat renders "active" with its live stack and bet; a null seat
renders "eliminated" with zero chips. -/
def renderSeat (players : List ModelPlayer) (seatIndex : Nat) :
    Option Seat → PlayerStackEntry
  | some s => ⟨nameAt players seatIndex, "active", s.totalChips, some s.stack,
      some s.betSize⟩
  | none => ⟨nameAt players seatIndex, "eliminated", 0, none, none⟩

/-- `table.seats().filter((_, i) => i < players.length)`: keeps the seats
whose original index is below the roster size. -/
def filteredSeats (n : Nat) (seats : List (Option Seat)) : List (Option Seat) :=
  (seats.enum.filter (fun p => p.1 < n)).map Prod.snd

/-- `game.playerStacks`: the filtered seat list mapped with its (post-filter)
index through the seat renderer. -/
def playerStacks (players : List ModelPlayer) (seats : List (Option Seat)) :
    List PlayerStackEntry :=
  (filteredSeats players.length seats).enum.map
    (fun p => renderSeat players p.1 p.2)

/-- `createTemplateData(table, player)`. The only hole-card access is
`table.holeCards()[player.index]`; a missing index (out of range) and a null
entry both render as no cards, hence the `Option.join`. -/
def createTemplateData (view : TableView) (players : List ModelPlayer)
    (player : ModelPlayer) : TemplateData :=
  ⟨player.name,
   player.index,
   (view.holeCards.get? player.index).join,
   view.communityCards,
   view.pots.map (fun pot =>
     ⟨pot.size, pot.eligiblePlayers.map (fun i => nameAt players i)⟩),
   view.legalActions,
   view.roundOfBetting,
   playerStacks players view.seats⟩

/-!
## The orchestration loops of `main`

`main` is a nest of loops driven by poker-ts queries. We model the external
table as a script: the answers it would give at each query point. Each turn
of the inner betting-round loop consumes one `TurnInput` (acting seat, that
seat's hole cards, offered legal actions, and the provider-transport
outcome); each betting round consumes a `RoundScript`; each hand a
`HandScript`. The journal (`logger` appends) is the emitted `Event` list;
`table.actionTaken` calls are collected as a `TakenAction` list.
-/

/-- One journal record, `{event, ...payload}`, per `logger` call site. -/
inductive Event where
  | game_start (seats : List (Option Seat))
  | hand_start (handIndex : Nat) (seats : List (Option Seat))
  | player_action (name : String) (cards : Option (List Card))
      (action : Action) (betSize : Option Int)
  | end_betting_round (pots : List Pot) (communityCards : List Card)
  | showdown (winners : List Nat)
  | hand_end (seats : List (Option Seat))
  | game_end (winner : String)
deriving DecidableEq, Repr

/-- The table and transport answers consumed by one iteration of the
betting-round loop: `playerToAct()`, `holeCards()[seatIndex]`,
`legalActions()`, and the provider call's outcome. -/
structure TurnInput where
  seatIndex : Nat
  cards : Option (List Card)
  legalActions : LegalActions
  response : ProviderResponse
deriving DecidableEq, Repr

/-- One iteration of `while (table.isBettingRoundInProgress())`: obtain the
action via `getModelAction`, log `player_action`, and apply the action with
`table.actionTaken(action, betSize)`. Returns (events emitted, actions
applied). -/
def turnStep (players : List ModelPlayer) (t : TurnInput) :
    List Event × List TakenAction :=
  let ta := (getModelAction t.legalActions t.response).1
  ([Event.player_action (nameAt players t.seatIndex) t.cards ta.action
      ta.betSize],
   [ta])

/-- The whole betting-round loop over the turns the table reports. -/
def bettingRound (players : List ModelPlayer) :
    List TurnInput → List Event × List TakenAction
  | [] => ([], [])
  | t :: rest =>
    let s := turnStep players t
    let r := bettingRound players rest
    (s.1 ++ r.1, s.2 ++ r.2)

/-- The answers consumed by one iteration of `while (table.isHandInProgress())`:
the betting-round turns, then `pots()` and `communityCards()` for the
`end_betting_round` record, then `areBettingRoundsCompleted()` and, if it
holds, `winners()` for the `showdown` record. -/
structure RoundScript where
  turns : List TurnInput
  pots : List Pot
  communityCards : List Card
  roundsCompleted : Bool
  winners : List Nat
deriving DecidableEq, Repr

/-- The answers consumed by one iteration of the hand loop: `table.seats()`
read at the loop condition, again after `startHand()` for the `hand_start`
record, the rounds of the hand, and `table.seats()` at the `hand_end`
record. -/
structure HandScript where
  seatsAtCheck : List (Option Seat)
  seatsAtStart : List (Option Seat)
  rounds : List RoundScript
  seatsAtEnd : List (Option Seat)
deriving DecidableEq, Repr

/-- Events of one hand-loop iteration after the `hand_start` record: per
round the betting-round events, the `end_betting_round` record, and the
`showdown` record when all betting rounds are completed; finally the
`hand_end` record. -/
def handEvents (players : List ModelPlayer) (h : HandScript) : List Event :=
  (h.rounds.map (fun r =>
      (bettingRound players r.turns).1 ++
      [Event.end_betting_round r.pots r.communityCards] ++
      (if r.roundsCompleted then [Event.showdown r.winners] else []))).flatten ++
  [Event.hand_end h.seatsAtEnd]

/-- The `for` condition of the main game loop:
`table.seats().filter(Boolean).length > 1`. An occupied (non-null) seat
object is truthy whatever its chip count. -/
def gameLoopCond (seats : List (Option Seat)) : Bool :=
  (seats.filterMap id).length > 1

/-- The game loop: starting from `handIndex`, while the condition holds (and
the script supplies answers), call `startHand()`, log `hand_start` with the
current `handIndex`, run the hand, and continue with `handIndex + 1`.
Returns (events emitted, number of `startHand()` calls). -/
def gameLoop (players : List ModelPlayer) :
    Nat → List HandScript → List Event × Nat
  | _, [] => ([], 0)
  | handIndex, h :: rest =>
    if gameLoopCond h.seatsAtCheck then
      let r := gameLoop players (handIndex + 1) rest
      (Event.hand_start handIndex h.seatsAtStart ::
        (handEvents players h ++ r.1), r.2 + 1)
    else ([], 0)

/-- `table.seats().findIndex(Boolean)` followed by `players[...].name` in the
`game_end` record: the player at the first occupied seat by position. JS
yields `-1`/`undefined` and a thrown `TypeError` when nothing matches or the
roster lookup fails, modelled as `none`. -/
def gameEndWinnerName (players : List ModelPlayer)
    (seats : List (Option Seat)) : Option String :=
  match seats.findIdx? (fun s => s.isSome) with
  | some i => (players.get? i).map ModelPlayer.name
  | none => none

/-!
## Player loading and the whole run
-/

/-- The loading loop body, one iteration per directory under `players/`:
build the `ModelPlayer` with `index := players.length`, push it, and then
throw `Too many players` when `players.length > table.numSeats()`. (The
`sitDown` call follows the check, so an over-capacity player never sits.) -/
def loadPlayersAux (numSeats : Nat) (acc : List ModelPlayer) :
    List PlayerConfig → Except String (List ModelPlayer)
  | [] => .ok acc
  | c :: rest =>
    let p : ModelPlayer := ⟨c.name, acc.length, "", c.model⟩
    let acc' := acc ++ [p]
    if acc'.length > numSeats then .error "Too many players"
    else loadPlayersAux numSeats acc' rest

/-- The loading phase of `main` over the roster configurations. -/
def loadPlayers (numSeats : Nat) (configs : List PlayerConfig) :
    Except String (List ModelPlayer) :=
  loadPlayersAux numSeats [] configs

/-- `table.seats()` right after loading: each roster index seated with
`INITIAL_CHIPS = 1000` by `sitDown`, remaining seats empty. -/
def initialSeats (numSeats : Nat) (players : List ModelPlayer) :
    List (Option Seat) :=
  (List.range numSeats).map (fun i =>
    if i < players.length then some ⟨1000, 1000, 0⟩ else none)

/-- The whole of `main` as a journal: if loading throws, the rejection is
caught by `main().catch(console.error)` and nothing was ever logged;
otherwise `game_start`, then the game loop from `handIndex = 1`, then
`game_end` naming the first occupied seat of the final `table.seats()` (if
that lookup throws, the `game_end` record is never written). -/
def runMain (numSeats : Nat) (configs : List PlayerConfig)
    (script : List HandScript) (finalSeats : List (Option Seat)) :
    List Event :=
  match loadPlayers numSeats configs with
  | .error _ => []
  | .ok players =>
    let r := gameLoop players 1 script
    Event.game_start (initialSeats numSeats players) :: r.1 ++
      (match gameEndWinnerName players finalSeats with
       | some w => [Event.game_end w]
       | none => [])

/-- The `handIndex` payloads of the `hand_start` records of a journal, in
order. -/
def handStartIdxs (es : List Event) : List Nat :=
  es.filterMap (fun e =>
    match e with
    | .hand_start i _ => some i
    | _ => none)

/-- Whether a journal record is a `player_action`. -/
def isPlayerAction : Event → Bool
  | .player_action _ _ _ _ => true
  | _ => false

/-- Stated from the spec's words, for comparison with `gameLoopCond`: the
number of seats that "hold chips > 0" (the spec's loop invariant counts
funded seats, not merely occupied ones). -/
def specFundedSeatCount (seats : List (Option Seat)) : Nat :=
  ((seats.filterMap id).filter (fun s => s.totalChips > 0)).length

/-!
## Helper lemmas
-/

theorem filter_enumFrom_of_le (l : List (Option Seat)) :
    ∀ (k j : Nat), j ≤ k →
      (l.enumFrom k).filter (fun p => decide (p.1 < j)) = [] := by
  induction l with
  | nil => intro k j _; rfl
  | cons a l ih =>
    intro k j hj
    have hk : ¬ (k < j) := by omega
    simp only [List.enumFrom_cons, List.filter_cons, decide_eq_true_eq]
    simp [hk, ih (k + 1) j (by omega)]

theorem filter_enumFrom_take (l : List (Option Seat)) :
    ∀ (k n j : Nat), j = k + n →
      ((l.enumFrom k).filter (fun p => decide (p.1 < j))).map Prod.snd =
        l.take n := by
  induction l with
  | nil => intro k n j _; simp
  | cons a l ih =>
    intro k n j hj
    cases n with
    | zero =>
      rw [filter_enumFrom_of_le (a :: l) k j (by omega)]
      simp
    | succ m =>
      have hk : k < j := by omega
      simp only [List.enumFrom_cons, List.filter_cons, decide_eq_true_eq]
      simp only [hk, if_true, List.map_cons, List.take_succ_cons]
      rw [ih (k + 1) m j (by omega)]

theorem filteredSeats_eq_take (n : Nat) (seats : List (Option Seat)) :
    filteredSeats n seats = seats.take n := by
  unfold filteredSeats
  exact filter_enumFrom_take seats 0 n n (by omega)

theorem playerStacks_get (players : List ModelPlayer)
    (seats : List (Option Seat)) (i : Nat) (hi : i < players.length) :
    (playerStacks players seats).get? i =
      (seats.get? i).map (renderSeat players i) := by
  unfold playerStacks
  rw [filteredSeats_eq_take]
  simp only [List.get?_eq_getElem?, List.enum, List.getElem?_map,
    List.getElem?_enumFrom, List.getElem?_take_of_lt hi, Nat.zero_add]
  cases seats[i]? with
  | none => rfl
  | some o => rfl

theorem findIdx_unique_occupied (seats : List (Option Seat)) :
    ∀ (i : Nat) (s : Seat),
      (seats.filterMap id).length = 1 →
      seats.get? i = some (some s) →
      seats.findIdx? (fun o => o.isSome) = some i := by
  induction seats with
  | nil => intro i s _ hi; simp at hi
  | cons a rest ih =>
    intro i s hcount hi
    cases a with
    | none =>
      cases i with
      | zero => simp at hi
      | succ j =>
        have h1 : rest.findIdx? (fun o => o.isSome) = some j := by
          refine ih j s ?_ ?_
          · simpa using hcount
          · simpa using hi
        simp [List.findIdx?_cons, List.findIdx?_succ, h1]
    | some s' =>
      have hempty : rest.filterMap id = [] := by
        apply List.length_eq_zero.mp
        simpa using hcount
      cases i with
      | zero => simp [List.findIdx?_cons]
      | succ j =>
        exfalso
        have hj : rest.get? j = some (some s) := by simpa using hi
        have hmem : some s ∈ rest := List.get?_mem hj
        have : s ∈ rest.filterMap id :=
          List.mem_filterMap.mpr ⟨some s, hmem, rfl⟩
        rw [hempty] at this
        exact absurd this (List.not_mem_nil s)

theorem handStartIdxs_append (a b : List Event) :
    handStartIdxs (a ++ b) = handStartIdxs a ++ handStartIdxs b :=
  List.filterMap_append a b _

theorem handStartIdxs_bettingRound (players : List ModelPlayer)
    (turns : List TurnInput) :
    handStartIdxs (bettingRound players turns).1 = [] := by
  induction turns with
  | nil => rfl
  | cons t rest ih =>
    simp only [bettingRound, turnStep]
    rw [handStartIdxs_append]
    simpa [handStartIdxs] using ih

theorem handStartIdxs_handEvents (players : List ModelPlayer)
    (h : HandScript) :
    handStartIdxs (handEvents players h) = [] := by
  unfold handEvents
  rw [handStartIdxs_append]
  have hrounds : ∀ rounds : List RoundScript,
      handStartIdxs ((rounds.map (fun r =>
        (bettingRound players r.turns).1 ++
        [Event.end_betting_round r.pots r.communityCards] ++
        (if r.roundsCompleted then [Event.showdown r.winners]
         else []))).flatten) = [] := by
    intro rounds
    induction rounds with
    | nil => rfl
    | cons r rest ih =>
      simp only [List.map_cons, List.flatten_cons]
      rw [handStartIdxs_append, handStartIdxs_append,
        handStartIdxs_append, handStartIdxs_bettingRound, ih]
      cases r.roundsCompleted <;> rfl
  rw [hrounds]
  rfl

theorem gameLoop_hand_start_range (players : List ModelPlayer) :
    ∀ (script : List HandScript) (hi : Nat),
      handStartIdxs (gameLoop players hi script).1 =
        List.range' hi (gameLoop players hi script).2 := by
  intro script
  induction script with
  | nil => intro hi; rfl
  | cons h rest ih =>
    intro hi
    unfold gameLoop
    cases hc : gameLoopCond h.seatsAtCheck with
    | false => simp [hc, handStartIdxs]
    | true =>
      simp only [hc, if_true]
      rw [List.range'_succ]
      have : handStartIdxs
          (Event.hand_start hi h.seatsAtStart ::
            (handEvents players h ++ (gameLoop players (hi + 1) rest).1)) =
          hi :: handStartIdxs
            (handEvents players h ++ (gameLoop players (hi + 1) rest).1) := by
        simp [handStartIdxs]
      rw [this, handStartIdxs_append, handStartIdxs_handEvents, ih (hi + 1)]
      simp

theorem loadPlayersAux_overflow (numSeats : Nat) :
    ∀ (configs : List PlayerConfig) (acc : List ModelPlayer),
      acc.length ≤ numSeats →
      acc.length + configs.length > numSeats →
      ∃ msg, loadPlayersAux numSeats acc configs = .error msg := by
  intro configs
  induction configs with
  | nil =>
    intro acc h1 h2
    exfalso
    simp only [List.length_nil] at h2
    omega
  | cons c rest ih =>
    intro acc h1 h2
    unfold loadPlayersAux
    by_cases hc :
      (acc ++ [(⟨c.name, acc.length, "", c.model⟩ : ModelPlayer)]).length >
        numSeats
    · rw [if_pos hc]
      exact ⟨"Too many players", rfl⟩
    · rw [if_neg hc]
      refine ih _ ?_ ?_
      · simp only [List.length_append, List.length_cons] at hc ⊢
        omega
      · simp only [List.length_append, List.length_cons] at h2 ⊢
        omega

/-!
## Claims
-/

/-- C1, counterexample to the claim as stated: when the provider call fails
(here: transport error) and `fold` is NOT among the offered legal actions,
the source's fallback is still `fold`, not the cheapest legal non-aggressive
action `check`: `getModelAction` returns `{action: "fold"}` unconditionally. -/
theorem c1_claim_counterexample :
    getModelAction ⟨[Action.check, Action.bet], some ⟨100, 900⟩⟩
        ProviderResponse.transportError =
      (⟨Action.fold, none⟩, some CallError.transport) ∧
    Action.fold ∉ ([Action.check, Action.bet] : List Action) ∧
    (⟨Action.fold, none⟩ : TakenAction).action ≠ Action.check := by
  decide

/-- C1 (amended): on any DecisionProvider failure for the acting seat's turn
(transport error, missing tool-use block, or validation failure), the
orchestrator substitutes `fold` unconditionally — whether or not `fold` is
among the offered legal actions — and proceeds exactly as if that action had
been returned normally: the turn emits one `player_action` record for the
substituted `fold` and applies exactly that action to the table. -/
theorem c1_fallback_is_always_fold (players : List ModelPlayer)
    (t : TurnInput) (e : CallError)
    (h : callModel t.legalActions t.response = .error e) :
    turnStep players t =
      ([Event.player_action (nameAt players t.seatIndex) t.cards
          Action.fold none],
       [⟨Action.fold, none⟩]) := by
  simp [turnStep, getModelAction, h]

/-- C1, witness: the amended theorem applied to a concrete failing turn. -/
theorem c1_fallback_witness :
    turnStep []
        ⟨0, none, ⟨[Action.check, Action.bet], some ⟨100, 900⟩⟩,
          ProviderResponse.transportError⟩ =
      ([Event.player_action (nameAt [] 0) none Action.fold none],
       [⟨Action.fold, none⟩]) :=
  c1_fallback_is_always_fold [] _ CallError.transport rfl

/-- C2, counterexample to the claim as stated: with
`chipRange = {min: 100, max: 900}` offered, the zod schema accepts the
proposal `{action: "bet"}` with no `betSize` at all, because `betSize` is
declared `.optional()` — so "`A.betSize` is present iff `A.action` is `bet`
or `raise`" fails in the only-if direction (and, dually, `{action: "fold",
betSize: 500}` is accepted with the bet size retained). -/
theorem c2_claim_counterexample :
    validateProposal ⟨[Action.fold, Action.bet], some ⟨100, 900⟩⟩
        ⟨some "bet", none⟩ = some ⟨Action.bet, none⟩ ∧
    validateProposal ⟨[Action.fold, Action.bet], some ⟨100, 900⟩⟩
        ⟨some "fold", some 500⟩ = some ⟨Action.fold, some 500⟩ := by
  decide

/-- C2 (amended): for every offered LegalActions L and every TakenAction A
that validation accepts, `A.action ∈ L.actions`, and whenever `A.betSize` is
present a chipRange was offered and the bet size lies within it. (Presence
of `betSize` is not tied to the action kind: `bet`/`raise` may omit it, and
when a chipRange is offered any action may carry an in-range one.) -/
theorem c2_validation_sound (la : LegalActions) (inp : RawInput)
    (ta : TakenAction) (h : validateProposal la inp = some ta) :
    ta.action ∈ la.actions ∧
    ∀ b : Int, ta.betSize = some b →
      ∃ cr, la.chipRange = some cr ∧
        (cr.min : Int) ≤ b ∧ b ≤ (cr.max : Int) := by
  unfold validateProposal at h
  cases hcr : la.chipRange with
  | none =>
    rw [hcr] at h
    cases ha : inp.action with
    | none => simp [validateNoRange, ha] at h
    | some s =>
      cases hp : parseActionStr la.actions s with
      | none => simp [validateNoRange, ha, hp] at h
      | some a =>
        have ht : ta = ⟨a, none⟩ := by
          simp [validateNoRange, ha, hp] at h
          exact h.symm
        subst ht
        refine ⟨List.mem_of_find?_eq_some hp, ?_⟩
        intro b hb
        cases hb
  | some cr =>
    rw [hcr] at h
    cases ha : inp.action with
    | none => simp [validateWithRange, ha] at h
    | some s =>
      cases hp : parseActionStr la.actions s with
      | none => simp [validateWithRange, ha, hp] at h
      | some a =>
        cases hb0 : inp.betSize with
        | none =>
          have ht : ta = ⟨a, none⟩ := by
            simp [validateWithRange, ha, hp, hb0] at h
            exact h.symm
          subst ht
          refine ⟨List.mem_of_find?_eq_some hp, ?_⟩
          intro b hb
          cases hb
        | some b0 =>
          simp only [validateWithRange, ha, hp, hb0] at h
          by_cases hin : (cr.min : Int) ≤ b0 ∧ b0 ≤ (cr.max : Int)
          · rw [if_pos hin] at h
            have ht : ta = ⟨a, some b0⟩ := by
              simpa using h.symm
            subst ht
            refine ⟨List.mem_of_find?_eq_some hp, ?_⟩
            intro b hb
            have hbb : b0 = b := by simpa using hb
            subst hbb
            exact ⟨cr, rfl, hin.1, hin.2⟩
          · rw [if_neg hin] at h
            cases h

/-- C2, witness: the amended theorem applied to a concretely accepted
proposal (`fold` with an in-range bet size of 500). -/
theorem c2_validation_witness :
    Action.fold ∈
        (⟨[Action.fold, Action.bet], some ⟨100, 900⟩⟩ : LegalActions).actions ∧
    ∃ cr, (⟨[Action.fold, Action.bet],
        some ⟨100, 900⟩⟩ : LegalActions).chipRange = some cr ∧
      (cr.min : Int) ≤ 500 ∧ (500 : Int) ≤ (cr.max : Int) := by
  have h := c2_validation_sound
    ⟨[Action.fold, Action.bet], some ⟨100, 900⟩⟩
    ⟨some "fold", some 500⟩ ⟨Action.fold, some 500⟩ (by decide)
  exact ⟨h.1, h.2 500 rfl⟩

/-- C3: for every turn of a betting round the orchestrator produces exactly
one TakenAction (real or fallback — `getModelAction` is total, its
`try/catch` absorbing every provider error) and applies exactly one action
to GameRules: over any betting round the applied-action list is precisely
one `getModelAction` result per turn, and exactly one `player_action`
record is journalled per turn. No turn is skipped and no provider exception
escapes the loop. -/
theorem c3_one_decision_per_turn (players : List ModelPlayer)
    (turns : List TurnInput) :
    (bettingRound players turns).2 =
      turns.map (fun t => (getModelAction t.legalActions t.response).1) ∧
    ((bettingRound players turns).1.filter isPlayerAction).length =
      turns.length ∧
    (bettingRound players turns).2.length = turns.length := by
  induction turns with
  | nil => exact ⟨rfl, rfl, rfl⟩
  | cons t rest ih =>
    refine ⟨?_, ?_, ?_⟩
    · simp only [bettingRound, turnStep, List.map_cons]
      rw [ih.1]
      rfl
    · simp only [bettingRound, turnStep, List.singleton_append,
        List.filter_cons, List.length_cons]
      rw [show isPlayerAction
          (Event.player_action (nameAt players t.seatIndex) t.cards
            (getModelAction t.legalActions t.response).1.action
            (getModelAction t.legalActions t.response).1.betSize) = true
        from rfl]
      simp only [if_true, List.length_cons]
      rw [ih.2.1]
    · simp only [bettingRound, turnStep, List.singleton_append,
        List.length_cons]
      rw [ih.2.2]

/-- C4: whenever the tool-use block proposes a bet size outside the offered
chipRange, the zod validation rejects the proposal (a thrown `ZodError`,
i.e., a validation-kind failure) and the fallback is triggered: the
orchestrator proceeds with `{action: "fold"}` and the out-of-range size is
never clamped into the range. -/
theorem c4_out_of_range_bet_rejected (la : LegalActions) (cr : ChipRange)
    (blocks : List ContentBlock) (blk : ContentBlock) (n : Int)
    (hcr : la.chipRange = some cr)
    (hfind : blocks.find?
      (fun b => b.isToolUse && b.name == "take_action") = some blk)
    (hbet : blk.input.betSize = some n)
    (hout : n < (cr.min : Int) ∨ (cr.max : Int) < n) :
    callModel la (ProviderResponse.content blocks) =
      .error CallError.validation ∧
    getModelAction la (ProviderResponse.content blocks) =
      (⟨Action.fold, none⟩, some CallError.validation) := by
  have hv : validateProposal la blk.input = none := by
    cases ha : blk.input.action with
    | none => simp [validateProposal, hcr, validateWithRange, ha]
    | some s =>
      cases hp : parseActionStr la.actions s with
      | none => simp [validateProposal, hcr, validateWithRange, ha, hp]
      | some a =>
        have hno : ¬ ((cr.min : Int) ≤ n ∧ n ≤ (cr.max : Int)) := by omega
        simp [validateProposal, hcr, validateWithRange, ha, hp, hbet, hno]
  have hc : callModel la (ProviderResponse.content blocks) =
      .error CallError.validation := by
    simp [callModel, hfind, hv]
  exact ⟨hc, by simp [getModelAction, hc]⟩

/-- C4, witness: the spec's Scenario C — a proposed bet of 5000 chips
against `chipRange = {min: 100, max: 900}` is rejected and `fold` is
substituted. -/
theorem c4_witness :
    callModel ⟨[Action.fold, Action.bet], some ⟨100, 900⟩⟩
        (ProviderResponse.content
          [⟨true, "take_action", ⟨some "bet", some 5000⟩⟩]) =
      .error CallError.validation ∧
    getModelAction ⟨[Action.fold, Action.bet], some ⟨100, 900⟩⟩
        (ProviderResponse.content
          [⟨true, "take_action", ⟨some "bet", some 5000⟩⟩]) =
      (⟨Action.fold, none⟩, some CallError.validation) :=
  c4_out_of_range_bet_rejected _ ⟨100, 900⟩ _
    ⟨true, "take_action", ⟨some "bet", some 5000⟩⟩ 5000 rfl (by decide) rfl
    (by decide)

/-- C5, counterexample to the claim as stated: the loop condition
`table.seats().filter(Boolean).length > 1` counts occupied (non-null)
seats, not seats with chips > 0. With one zero-chip occupied seat and one
funded seat, the condition holds — the loop would start a new hand — even
though only one seat holds chips > 0; concretely, `gameLoop` performs a
`startHand` on such a script. -/
theorem c5_claim_counterexample :
    gameLoopCond [some ⟨0, 0, 0⟩, some ⟨500, 500, 0⟩] = true ∧
    specFundedSeatCount [some ⟨0, 0, 0⟩, some ⟨500, 500, 0⟩] = 1 ∧
    (gameLoop [] 1
      [⟨[some ⟨0, 0, 0⟩, some ⟨500, 500, 0⟩],
        [some ⟨0, 0, 0⟩, some ⟨500, 500, 0⟩], [],
        [some ⟨0, 0, 0⟩, some ⟨500, 500, 0⟩]⟩]).2 = 1 := by
  decide

/-- C5 (amended): the game loop starts a new hand only while strictly more
than one seat is occupied (non-null), regardless of chip counts; when the
loop stops with exactly one occupied seat remaining, the `game_end` lookup
(first occupied seat by position) necessarily names that unique seat's
player. -/
theorem c5_loop_condition_and_winner (players : List ModelPlayer)
    (seats : List (Option Seat)) (i : Nat) (s : Seat)
    (hcount : (seats.filterMap id).length = 1)
    (hi : seats.get? i = some (some s)) :
    gameLoopCond seats = false ∧
    gameEndWinnerName players seats =
      (players.get? i).map ModelPlayer.name := by
  constructor
  · simp [gameLoopCond, hcount]
  · unfold gameEndWinnerName
    rw [findIdx_unique_occupied seats i s hcount hi]

/-- C5, witness: the amended theorem applied to a final state with a single
occupied seat at index 1. -/
theorem c5_winner_witness :
    gameLoopCond [none, some ⟨1000, 1000, 0⟩] = false ∧
    gameEndWinnerName [⟨"A", 0, "", "m"⟩, ⟨"B", 1, "", "m"⟩]
        [none, some ⟨1000, 1000, 0⟩] =
      (([⟨"A", 0, "", "m"⟩, ⟨"B", 1, "", "m"⟩] :
          List ModelPlayer).get? 1).map ModelPlayer.name :=
  c5_loop_condition_and_winner [⟨"A", 0, "", "m"⟩, ⟨"B", 1, "", "m"⟩]
    [none, some ⟨1000, 1000, 0⟩] 1 ⟨1000, 1000, 0⟩ (by decide) rfl

/-- C6: a decision validation failure (a tool-use block was found but its
input fails the zod schema) is signalled and logged as
`CallError.validation`, the kind of a thrown `ZodError`, while a
transport/provider failure is logged as `CallError.transport`, the kind of
a rejected API call — distinct error values, so the two failure categories
are distinguishable in the logs. -/
theorem c6_error_kinds_distinct (la : LegalActions)
    (blocks : List ContentBlock) (blk : ContentBlock)
    (hfind : blocks.find?
      (fun b => b.isToolUse && b.name == "take_action") = some blk)
    (hval : validateProposal la blk.input = none) :
    (getModelAction la (ProviderResponse.content blocks)).2 =
      some CallError.validation ∧
    (getModelAction la ProviderResponse.transportError).2 =
      some CallError.transport ∧
    CallError.validation ≠ CallError.transport := by
  refine ⟨?_, rfl, by decide⟩
  simp [getModelAction, callModel, hfind, hval]

/-- C6, witness: a proposal naming an action outside the offered enum fails
validation and is logged as the validation kind, distinct from the
transport kind. -/
theorem c6_witness :
    (getModelAction ⟨[Action.fold], none⟩
        (ProviderResponse.content
          [⟨true, "take_action", ⟨some "dance", none⟩⟩])).2 =
      some CallError.validation ∧
    (getModelAction ⟨[Action.fold], none⟩
        ProviderResponse.transportError).2 = some CallError.transport ∧
    CallError.validation ≠ CallError.transport :=
  c6_error_kinds_distinct ⟨[Action.fold], none⟩
    [⟨true, "take_action", ⟨some "dance", none⟩⟩]
    ⟨true, "take_action", ⟨some "dance", none⟩⟩ (by decide) (by decide)

/-- C7, counterexample to the claim as stated: a seat that GameRules still
lists as a (non-null) seat entry but whose chips are all gone is rendered
by the snapshot builder with status "active" (and totalChips 0), not
"eliminated": the source branches on seat truthiness, not on chip count. -/
theorem c7_claim_counterexample :
    playerStacks [⟨"A", 0, "", "m"⟩] [some ⟨0, 0, 0⟩] =
      [⟨"A", "active", 0, some 0, some 0⟩] ∧
    ("active" : String) ≠ "eliminated" := by
  constructor
  · rfl
  · decide

/-- C7 (amended): for every seat index within the roster, the snapshot
builder renders a seat that GameRules lists as null (vacated) with status
"eliminated" and zero chips, and renders any non-null seat entry as
"active" with its live stack and bet — even when that entry's chip count is
zero. -/
theorem c7_seat_rendering (players : List ModelPlayer)
    (seats : List (Option Seat)) (i : Nat) (s : Seat)
    (hi : i < players.length) :
    (seats.get? i = some none →
      (playerStacks players seats).get? i =
        some ⟨nameAt players i, "eliminated", 0, none, none⟩) ∧
    (seats.get? i = some (some s) →
      (playerStacks players seats).get? i =
        some ⟨nameAt players i, "active", s.totalChips, some s.stack,
          some s.betSize⟩) := by
  constructor
  · intro h
    rw [playerStacks_get players seats i hi, h]
    rfl
  · intro h
    rw [playerStacks_get players seats i hi, h]
    rfl

/-- C7, witness: the amended theorem applied to a two-seat table whose
first seat is vacated (null) and whose second seat is occupied. -/
theorem c7_rendering_witness :
    (playerStacks [⟨"A", 0, "", "m"⟩, ⟨"B", 1, "", "m"⟩]
        [none, some ⟨700, 650, 50⟩]).get? 0 =
      some ⟨nameAt [⟨"A", 0, "", "m"⟩, ⟨"B", 1, "", "m"⟩] 0, "eliminated", 0,
        none, none⟩ ∧
    (playerStacks [⟨"A", 0, "", "m"⟩, ⟨"B", 1, "", "m"⟩]
        [none, some ⟨700, 650, 50⟩]).get? 1 =
      some ⟨nameAt [⟨"A", 0, "", "m"⟩, ⟨"B", 1, "", "m"⟩] 1, "active", 700,
        some 650, some 50⟩ :=
  ⟨(c7_seat_rendering [⟨"A", 0, "", "m"⟩, ⟨"B", 1, "", "m"⟩]
      [none, some ⟨700, 650, 50⟩] 0 ⟨700, 650, 50⟩ (by decide)).1 rfl,
   (c7_seat_rendering [⟨"A", 0, "", "m"⟩, ⟨"B", 1, "", "m"⟩]
      [none, some ⟨700, 650, 50⟩] 1 ⟨700, 650, 50⟩ (by decide)).2 rfl⟩

/-- C8: when the roster holds more players than the table has seats, the
loading loop throws `Too many players` — a fatal configuration error —
before any hand starts and before `game_start` is emitted: the run's
journal is empty. -/
theorem c8_overflow_aborts_before_start (numSeats : Nat)
    (configs : List PlayerConfig) (script : List HandScript)
    (finalSeats : List (Option Seat))
    (h : configs.length > numSeats) :
    (∃ msg, loadPlayers numSeats configs = .error msg) ∧
    runMain numSeats configs script finalSeats = [] := by
  obtain ⟨msg, hmsg⟩ := loadPlayersAux_overflow numSeats configs []
    (by simp) (by simpa using h)
  have hload : loadPlayers numSeats configs = .error msg := hmsg
  refine ⟨⟨msg, hload⟩, ?_⟩
  simp [runMain, hload]

/-- C8, witness: two players against a one-seat table abort during loading
with an empty journal. -/
theorem c8_witness :
    (∃ msg, loadPlayers 1 [⟨"A", "m"⟩, ⟨"B", "m"⟩] = .error msg) ∧
    runMain 1 [⟨"A", "m"⟩, ⟨"B", "m"⟩] [] [] = [] :=
  c8_overflow_aborts_before_start 1 [⟨"A", "m"⟩, ⟨"B", "m"⟩] [] []
    (by decide)

/-- C9: the template data built for a player's decision reads the hole-card
table only at the player's own seat index, so for any two table states that
differ only in the hole cards of other seats (same entry at the player's
index, all other queried fields equal), the produced template data is
identical. -/
theorem c9_no_other_hole_cards (players : List ModelPlayer)
    (p : ModelPlayer) (v1 v2 : TableView)
    (hself : v1.holeCards.get? p.index = v2.holeCards.get? p.index)
    (hcc : v1.communityCards = v2.communityCards)
    (hpots : v1.pots = v2.pots)
    (hla : v1.legalActions = v2.legalActions)
    (hround : v1.roundOfBetting = v2.roundOfBetting)
    (hseats : v1.seats = v2.seats) :
    createTemplateData v1 players p = createTemplateData v2 players p := by
  unfold createTemplateData
  rw [hself, hcc, hpots, hla, hround, hseats]

/-- C9, witness: two states differing only in seat 1's hole cards yield
byte-identical template data for the player at seat 0 (and the states do
differ). -/
theorem c9_witness :
    createTemplateData
        ⟨[some [⟨"A", "s"⟩, ⟨"K", "s"⟩], some [⟨"2", "h"⟩, ⟨"3", "h"⟩]],
          [], [], ⟨[Action.fold], none⟩, "preflop",
          [some ⟨1000, 1000, 0⟩, some ⟨1000, 1000, 0⟩]⟩
        [⟨"P0", 0, "", "m"⟩, ⟨"P1", 1, "", "m"⟩] ⟨"P0", 0, "", "m"⟩ =
      createTemplateData
        ⟨[some [⟨"A", "s"⟩, ⟨"K", "s"⟩], some [⟨"7", "c"⟩, ⟨"8", "c"⟩]],
          [], [], ⟨[Action.fold], none⟩, "preflop",
          [some ⟨1000, 1000, 0⟩, some ⟨1000, 1000, 0⟩]⟩
        [⟨"P0", 0, "", "m"⟩, ⟨"P1", 1, "", "m"⟩] ⟨"P0", 0, "", "m"⟩ :=
  c9_no_other_hole_cards [⟨"P0", 0, "", "m"⟩, ⟨"P1", 1, "", "m"⟩]
    ⟨"P0", 0, "", "m"⟩ _ _ rfl rfl rfl rfl rfl rfl

/-- C10: the `hand_start` records of a run carry exactly the hand indices
`1, 2, 3, ...` in order — the first hand is numbered 1 and each subsequent
hand increments by exactly 1 — and their number equals the number of
`startHand` calls the loop performed, so no hand is started without its
`hand_start` record. -/
theorem c10_hand_start_indices (players : List ModelPlayer)
    (script : List HandScript) :
    handStartIdxs (gameLoop players 1 script).1 =
      List.range' 1 (gameLoop players 1 script).2 ∧
    (handStartIdxs (gameLoop players 1 script).1).length =
      (gameLoop players 1 script).2 := by
  refine ⟨gameLoop_hand_start_range players script 1, ?_⟩
  rw [gameLoop_hand_start_range players script 1]
  simp

end ModelPoker
